import Mathlib

/-!
Shallow embedding of the smart-farm dashboard scripts (src/main.py) in Lean 4.

The source file concatenates two Streamlit dashboard scripts.  The logic
relevant to verification is:

* `calculate_growth_index(humidity, ec, ph)` (lines 40-51): a pure scoring
  function `max(0, min(100, 100 - |h-60|*0.8 - |ec-2.0|*20 - |ph-6.0|*15))`.
* `load_env_data` variant 1 (lines 16-34): loads a CSV per school when the
  file exists, otherwise builds a dummy `DataFrame` with a fixed 30-day
  `pd.date_range("2024-01-01", periods=30)` and `np.random.uniform` samples
  for temperature and humidity (unseeded global RNG).
* `find_file` (lines 156-165): directory scan comparing both the NFC and the
  NFD normalization of the filename against the target.
* `merge_growth(growth_dict, env_dict)` (lines 211-218): for each school in
  the growth dict, copy the table, stamp a `학교` column and an `EC` column
  equal to `round(env_dict[school]["ec"].mean(), 2)`, then concatenate.
* the summary block (lines 240-248): one row per school with
  `"EC 목표" = round(env_data[school]["ec"].mean(), 2)` and the row count.

Numbers are modelled by `ℚ` (the scripts' float arithmetic read as exact
real-number arithmetic); `pandas` tables are modelled as lists of rows, a
row being an association list from column name to value.  Python's `round`
(round-half-to-even) is modelled exactly on `ℚ`.  `pandas` `mean()` of an
empty series is `NaN`, modelled by a distinguished `Val.nan` value (with
reflexive equality, since our values are compared structurally).
-/

namespace SmartFarm

/-- A cell value of a table: a number, a string, a date (proleptic Gregorian
ordinal, as in Python's `date.toordinal`), or pandas' `NaN`. -/
inductive Val where
  | num (q : ℚ)
  | str (s : String)
  | date (ordinal : Nat)
  | nan
deriving DecidableEq

/-- A table row: association list from column name to value
(one pandas row; the keys are the column names). -/
abbrev Row := List (String × Val)

/-- A pandas `DataFrame`, modelled as its list of rows. -/
structure Table where
  rows : List Row
deriving DecidableEq

/-- `df[c] = v` on one row: replace the value of column `c`, appending the
column at the end when it does not yet exist (pandas column-assignment). -/
def Row.setCol : Row → String → Val → Row
  | [], c, v => [(c, v)]
  | p :: rest, c, v => if p.1 = c then (c, v) :: rest else p :: Row.setCol rest c v

/-- `df[c] = v` on a whole table (a constant column assignment). -/
def Table.setColAll (t : Table) (c : String) (v : Val) : Table :=
  ⟨t.rows.map (fun r => Row.setCol r c v)⟩

/-- Numeric view of a cell. -/
def Val.asNum : Val → Option ℚ
  | .num q => some q
  | _ => none

/-- The numeric column `c` of a table: `some` of the list of values when every
row carries a number in column `c`, `none` otherwise (a missing column is a
pandas `KeyError`; we conflate a non-numeric cell with that failure since the
source only ever reads the numeric `ec` column this way). -/
def Table.colNums (t : Table) (c : String) : Option (List ℚ) :=
  t.rows.mapM (fun r => (r.lookup c).bind Val.asNum)

/-- Mean of a list of rationals; `none` models pandas' `NaN` on an empty
series. -/
def meanQ (l : List ℚ) : Option ℚ :=
  if l.isEmpty then none else some (l.sum / l.length)

/-- Python's `round` to an integer: round half to even. -/
def roundHalfEven (q : ℚ) : ℤ :=
  if q - ⌊q⌋ < 1 / 2 then ⌊q⌋
  else if q - ⌊q⌋ > 1 / 2 then ⌊q⌋ + 1
  else if ⌊q⌋ % 2 = 0 then ⌊q⌋ else ⌊q⌋ + 1

/-- Python's `round(q, 2)`. -/
def round2 (q : ℚ) : ℚ := (roundHalfEven (q * 100) : ℚ) / 100

/-- Errors the merge/summary code can raise (Python exception classes). -/
inductive PyError where
  | keyError (key : String)
  | valueError (msg : String)
deriving DecidableEq

/-- `round(series.mean(), 2)` as a cell value: `NaN` on an empty series. -/
def ecStamp (xs : List ℚ) : Val :=
  match meanQ xs with
  | some m => .num (round2 m)
  | none => .nan

/-- `round(env_dict[school]["ec"].mean(), 2)` with its failure modes:
`KeyError school` when the school is not in the environment dict, and
`KeyError "ec"` when a row lacks a numeric `ec` value. -/
def schoolEC (env : List (String × Table)) (s : String) : Except PyError Val :=
  match env.lookup s with
  | none => .error (.keyError s)
  | some e =>
    match e.colNums "ec" with
    | none => .error (.keyError "ec")
    | some xs => .ok (ecStamp xs)

/-- The body of the `merge_growth` loop on one school:
`tmp = df.copy(); tmp["학교"] = school; tmp["EC"] = round(...)`. -/
def augment (school : String) (v : Val) (t : Table) : Table :=
  (t.setColAll "학교" (.str school)).setColAll "EC" v

/-- The `merge_growth` loop over `growth_dict.items()`, collecting the
augmented per-school tables; the first failing school aborts the whole call
(the Python exception propagates). -/
def mergeLoop (env : List (String × Table)) : List (String × Table) → Except PyError (List Table)
  | [] => .ok []
  | p :: rest =>
    match schoolEC env p.1 with
    | .error e => .error e
    | .ok v =>
      match mergeLoop env rest with
      | .error e => .error e
      | .ok ts => .ok (augment p.1 v p.2 :: ts)

/-- `merge_growth(growth_dict, env_dict)` (src/main.py lines 211-218).
Python dicts are insertion-ordered, so they are modelled as association
lists.  `pd.concat` of an empty list raises
`ValueError: No objects to concatenate`. -/
def merge_growth (growth env : List (String × Table)) : Except PyError Table :=
  match mergeLoop env growth with
  | .error e => .error e
  | .ok out =>
    if out.isEmpty then .error (.valueError "No objects to concatenate")
    else .ok ⟨(out.map Table.rows).flatten⟩

/-- One row of the TAB-1 summary table (lines 240-248):
`{"학교명": school, "EC 목표": round(env[school]["ec"].mean(), 2), "개체수": len(df)}`. -/
structure SummaryRow where
  schoolName : String
  ecTarget : Val
  count : Nat
deriving DecidableEq

/-- The summary loop over `growth_data.items()` (lines 240-248). -/
def summaryLoop (env : List (String × Table)) : List (String × Table) → Except PyError (List SummaryRow)
  | [] => .ok []
  | p :: rest =>
    match schoolEC env p.1 with
    | .error e => .error e
    | .ok v =>
      match summaryLoop env rest with
      | .error e => .error e
      | .ok rs => .ok (⟨p.1, v, p.2.rows.length⟩ :: rs)

/-- The `total` accumulated alongside the summary rows. -/
def summaryTotal (growth : List (String × Table)) : Nat :=
  (growth.map (fun p => p.2.rows.length)).sum

/-- `calculate_growth_index(humidity, ec, ph)` (src/main.py lines 40-51). -/
def calculate_growth_index (humidity ec ph : ℚ) : ℚ :=
  let ideal_h : ℚ := 60
  let ideal_ec : ℚ := 2
  let ideal_ph : ℚ := 6
  let score :=
    100
    - |humidity - ideal_h| * (8 / 10)
    - |ec - ideal_ec| * 20
    - |ph - ideal_ph| * 15
  max 0 (min 100 score)

/-- Modelled from the spec: Mode A of `scoreCondition` — "start at 100;
subtract `|humidity - 60| * 0.8`, `|ec - 2.0| * 20`, `|ph - 6.0| * 15`;
clamp to [0, 100]" — written independently of the code, for comparison. -/
def scoreCondition_modeA (humidity ec ph : ℚ) : ℚ :=
  max 0 (min 100 (100 - |humidity - 60| * (8 / 10) - |ec - 2| * 20 - |ph - 6| * 15))

/-!
### Unicode normalization model and `find_file`

`find_file` (lines 156-165) compares `unicodedata.normalize("NFC", ·)` and
`unicodedata.normalize("NFD", ·)` of the target and of each directory entry.
Unicode text is modelled abstractly but faithfully to canonical
normalization of Hangul-like scripts: a character is either an inert code
point, a leading-consonant jamo, a vowel jamo, or a precomposed syllable;
NFD decomposes a syllable into its two jamo, NFC recomposes an adjacent
leading-consonant/vowel pair into the syllable. -/

/-- An abstract Unicode character for the normalization model. -/
inductive UChar where
  | plain (n : Nat)
  | lead (n : Nat)
  | vowel (n : Nat)
  | syll (a b : Nat)
deriving DecidableEq

/-- An abstract Unicode string. -/
abbrev UStr := List UChar

/-- `unicodedata.normalize("NFD", s)`: decompose every precomposed
syllable. -/
def nfd : UStr → UStr
  | [] => []
  | .syll a b :: rest => .lead a :: .vowel b :: nfd rest
  | c :: rest => c :: nfd rest

/-- `unicodedata.normalize("NFC", s)`: recompose every adjacent
leading-consonant/vowel pair. -/
def nfc : UStr → UStr
  | .lead a :: .vowel b :: rest => .syll a b :: nfc rest
  | c :: rest => c :: nfc rest
  | [] => []

/-- The head of a string is not a vowel jamo (an auxiliary notion for
reasoning about recomposition). -/
def headNotVowel : UStr → Prop
  | .vowel _ :: _ => False
  | _ => True

/-- A directory entry: its on-disk name and the identity of the file it
denotes (so that "resolves to the same file" is expressible even when the
on-disk spelling of the name changes normalization form). -/
structure DirEntry where
  name : UStr
  fid : Nat
deriving DecidableEq

/-- `find_file(directory, target)` (lines 156-165): return the first entry
whose name agrees with the target under NFC or under NFD, else `None`. -/
def find_file (dir : List DirEntry) (target : UStr) : Option DirEntry :=
  dir.find? (fun f => decide (nfc f.name = nfc target) || decide (nfd f.name = nfd target))

/-!
### `load_env_data` variant 1 (lines 16-34): dummy-data fallback

The missing-file branch builds
`pd.DataFrame({"날짜": pd.date_range("2024-01-01", periods=30),
"온도": np.random.uniform(18, 28, 30), "습도": np.random.uniform(40, 80, 30)})`.
`np.random.uniform` draws from numpy's unseeded global RNG; it is modelled
as a stream `rng : Nat → ℚ` of draws in `[0, 1)` together with a cursor that
advances by 30 per `uniform(…, 30)` call (so only missing-file schools
consume draws).  Two Python invocations of the loader see different global
RNG states, i.e. different streams/cursors. -/

/-- `pd.date_range("2024-01-01", periods=30)` starts at the proleptic
Gregorian ordinal of 2024-01-01 (Python's `date(2024, 1, 1).toordinal()`). -/
def ord20240101 : Nat := 738886

/-- Row `i` of the dummy table: the date column is deterministic, the
temperature and humidity cells are `lo + (hi - lo) * u` for uniform draws
`u` taken at cursor positions `k + i` (temperature block) and `k + 30 + i`
(humidity block). -/
def dummyRow (rng : Nat → ℚ) (k i : Nat) : Row :=
  [("날짜", Val.date (ord20240101 + i)),
   ("온도", Val.num (18 + (28 - 18) * rng (k + i))),
   ("습도", Val.num (40 + (80 - 40) * rng (k + 30 + i)))]

/-- The dummy `DataFrame` built in the missing-file branch, from RNG cursor
`k`. -/
def dummy_df (rng : Nat → ℚ) (k : Nat) : Table :=
  ⟨(List.range 30).map (dummyRow rng k)⟩

/-- The fixed school list of variant 1 (line 18). -/
def schools_v1 : List String := ["동산고", "대건고", "제일고"]

/-- The loading loop of variant 1: `files` models
`os.path.exists`/`pd.read_csv` (the parsed table when the CSV exists);
a missing file takes the dummy branch and consumes 60 RNG draws. -/
def load_env_go (files : String → Option Table) (rng : Nat → ℚ) :
    List String → Nat → List (String × Table)
  | [], _ => []
  | s :: rest, k =>
    match files s with
    | some df => (s, df) :: load_env_go files rng rest k
    | none => (s, dummy_df rng k) :: load_env_go files rng rest (k + 60)

/-- `load_env_data()` variant 1 (lines 16-34), from the start of the RNG
stream. -/
def load_env_data_v1 (files : String → Option Table) (rng : Nat → ℚ) :
    List (String × Table) :=
  load_env_go files rng schools_v1 0

/-!
### Heap model of `merge_growth` (for the no-mutation claim)

pandas `DataFrame`s are heap objects mutated in place by column assignment;
`merge_growth` copies each growth table (`tmp = df.copy()`) before writing.
The heap is a list of tables indexed by object id; the dicts map school
names to object ids.  `tmp = df.copy()` allocates a fresh id at the end of
the heap; `tmp[c] = v` writes in place at `tmp`'s id. -/

/-- Read the object at id `i` (an out-of-range id reads the empty table; the
claims only quantify over valid ids). -/
def heapRead (h : List Table) (i : Nat) : Table := h.getD i ⟨[]⟩

/-- The `merge_growth` loop on the heap: for each `(school, df-id)` pair,
copy, stamp `학교`, compute the EC stamp from the environment table on the
heap, stamp `EC`, and accumulate the resulting table. -/
def mergeLoopHeap (env : List (String × Nat)) :
    List (String × Nat) → List Table → List Table → List Table × Except PyError (List Table)
  | [], h, acc => (h, .ok acc)
  | p :: rest, h, acc =>
    let j := h.length
    let h1 := h ++ [heapRead h p.2]
    let h2 := h1.set j ((heapRead h1 j).setColAll "학교" (.str p.1))
    match env.lookup p.1 with
    | none => (h2, .error (.keyError p.1))
    | some ei =>
      match (heapRead h2 ei).colNums "ec" with
      | none => (h2, .error (.keyError "ec"))
      | some xs =>
        let h3 := h2.set j ((heapRead h2 j).setColAll "EC" (ecStamp xs))
        mergeLoopHeap env rest h3 (acc ++ [heapRead h3 j])

/-- `merge_growth` on the heap model: returns the final heap and the
concatenated result (or the propagated exception). -/
def merge_growth_heap (h : List Table) (growth env : List (String × Nat)) :
    List Table × Except PyError Table :=
  match mergeLoopHeap env growth h [] with
  | (h', .error e) => (h', .error e)
  | (h', .ok out) =>
    if out.isEmpty then (h', .error (.valueError "No objects to concatenate"))
    else (h', .ok ⟨(out.map Table.rows).flatten⟩)

/-!
### Concrete fixtures (for counterexamples and witnesses)
-/

/-- An environment table whose `ec` column is `[1, 2, 2]` (mean `5/3`, a
value that `round(…, 2)` visibly alters). -/
def envTableA : Table :=
  ⟨[[("time", Val.date 0), ("ec", Val.num 1)],
    [("time", Val.date 1), ("ec", Val.num 2)],
    [("time", Val.date 2), ("ec", Val.num 2)]]⟩

/-- A two-row growth table. -/
def growthTableA : Table :=
  ⟨[[("생중량(g)", Val.num 12)], [("생중량(g)", Val.num 15)]]⟩

/-- Growth dict `{A: growthTableA}`. -/
def growthMapA : List (String × Table) := [("A", growthTableA)]

/-- Environment dict `{A: envTableA}`. -/
def envMapA : List (String × Table) := [("A", envTableA)]

/-- Environment dict for schools `{A, B}`. -/
def envMapAB : List (String × Table) := [("A", envTableA), ("B", envTableA)]

/-- Growth dict for schools `{C, D}` (disjoint from `{A, B}`). -/
def growthMapCD : List (String × Table) := [("C", growthTableA), ("D", growthTableA)]

/-- The unified table `merge_growth growthMapA envMapA` actually produces:
the `ec` mean `5/3` is stamped as `round(5/3, 2) = 1.67`. -/
def mergedA : Table :=
  ⟨[[("생중량(g)", Val.num 12), ("학교", Val.str "A"), ("EC", Val.num (167 / 100))],
    [("생중량(g)", Val.num 15), ("학교", Val.str "A"), ("EC", Val.num (167 / 100))]]⟩

/-- The summary rows for `growthMapA`/`envMapA`. -/
def srowsA : List SummaryRow := [⟨"A", Val.num (167 / 100), 2⟩]

/-- An RNG stream that always draws `0`. -/
def rngZero : Nat → ℚ := fun _ => 0

/-- An RNG stream that always draws `1/2`. -/
def rngHalf : Nat → ℚ := fun _ => 1 / 2

/-- A file system with no environment CSVs at all. -/
def noFiles : String → Option Table := fun _ => none

/-- Decidable equality of `Except` results, so concrete runs of the
pipeline can be checked by evaluation. -/
instance {ε α : Type} [DecidableEq ε] [DecidableEq α] : DecidableEq (Except ε α) := fun a b =>
  match a, b with
  | .ok x, .ok y =>
    if h : x = y then Decidable.isTrue (congrArg Except.ok h)
    else Decidable.isFalse (fun hc => h (Except.ok.inj hc))
  | .error x, .error y =>
    if h : x = y then Decidable.isTrue (congrArg Except.error h)
    else Decidable.isFalse (fun hc => h (Except.error.inj hc))
  | .ok _, .error _ => Decidable.isFalse (fun hc => Except.noConfusion hc)
  | .error _, .ok _ => Decidable.isFalse (fun hc => Except.noConfusion hc)

/-!
## Theorems
-/

/-!
### Association-list lemmas about column assignment
-/

/-- Reading back the column just assigned. -/
theorem lookup_setCol_self (r : Row) (c : String) (v : Val) :
    (Row.setCol r c v).lookup c = some v := by
  induction r with
  | nil => simp [Row.setCol, List.lookup]
  | cons p rest ih =>
    by_cases hc : p.1 = c
    · simp [Row.setCol, hc, List.lookup]
    · have hb : (c == p.1) = false := beq_eq_false_iff_ne.mpr (Ne.symm hc)
      simp [Row.setCol, hc, List.lookup, hb, ih]

/-- Assigning column `c` does not change any other column `c'`. -/
theorem lookup_setCol_ne (r : Row) (c c' : String) (v : Val) (hne : c' ≠ c) :
    (Row.setCol r c v).lookup c' = r.lookup c' := by
  have hb : (c' == c) = false := beq_eq_false_iff_ne.mpr hne
  induction r with
  | nil => simp [Row.setCol, List.lookup, hb]
  | cons p rest ih =>
    by_cases hc : p.1 = c
    · simp [Row.setCol, hc, List.lookup, hb]
    · cases hb2 : (c' == p.1) <;> simp [Row.setCol, hc, List.lookup, hb2, ih]

/-!
### Lemmas about `merge_growth` and the summary loop
-/

/-- Every row of an augmented table carries the stamped `EC` value and the
stamped `학교` value. -/
theorem mem_augment_rows {r : Row} {school : String} {v : Val} {t : Table}
    (hr : r ∈ (augment school v t).rows) :
    r.lookup "EC" = some v ∧ r.lookup "학교" = some (.str school) := by
  simp only [augment, Table.setColAll, List.mem_map] at hr
  obtain ⟨r1, hr1, rfl⟩ := hr
  obtain ⟨r0, hr0, rfl⟩ := hr1
  refine ⟨lookup_setCol_self .., ?_⟩
  rw [lookup_setCol_ne _ _ _ _ (by decide)]
  exact lookup_setCol_self ..

/-- Stamping the two columns does not change the number of rows. -/
theorem augment_length (school : String) (v : Val) (t : Table) :
    (augment school v t).rows.length = t.rows.length := by
  simp [augment, Table.setColAll]

/-- When every growth school resolves, the merge loop succeeds and returns
exactly the per-school augmented tables, in input order. -/
theorem mergeLoop_ok_of_forall (env : List (String × Table)) (ecv : String → Val) :
    ∀ growth : List (String × Table),
      (∀ p ∈ growth, schoolEC env p.1 = .ok (ecv p.1)) →
      mergeLoop env growth = .ok (growth.map (fun p => augment p.1 (ecv p.1) p.2)) := by
  intro growth
  induction growth with
  | nil => intro _; rfl
  | cons p rest ih =>
    intro hok
    have hp := hok p (List.mem_cons_self ..)
    have hr := ih (fun q hq => hok q (List.mem_cons_of_mem _ hq))
    simp [mergeLoop, hp, hr]

/-- Every table collected by a successful merge loop is the augmentation of
one of the input growth tables with its school's resolved EC stamp. -/
theorem mergeLoop_ok_mem (env : List (String × Table)) :
    ∀ (growth : List (String × Table)) (out : List Table),
      mergeLoop env growth = .ok out →
      ∀ tb ∈ out, ∃ p ∈ growth, ∃ v, schoolEC env p.1 = .ok v ∧ tb = augment p.1 v p.2 := by
  intro growth
  induction growth with
  | nil =>
    intro out h tb htb
    simp only [mergeLoop] at h
    obtain rfl : ([] : List Table) = out := Except.ok.inj h
    simp at htb
  | cons p rest ih =>
    intro out h tb htb
    simp only [mergeLoop] at h
    cases hec : schoolEC env p.1 with
    | error e => rw [hec] at h; exact absurd h (by simp)
    | ok v =>
      rw [hec] at h
      cases hml : mergeLoop env rest with
      | error e => rw [hml] at h; exact absurd h (by simp)
      | ok ts =>
        rw [hml] at h
        obtain rfl : augment p.1 v p.2 :: ts = out := Except.ok.inj h
        rcases List.mem_cons.mp htb with rfl | hts
        · exact ⟨p, List.mem_cons_self .., v, hec, rfl⟩
        · obtain ⟨q, hq, w, hw, rfl⟩ := ih ts hml tb hts
          exact ⟨q, List.mem_cons_of_mem _ hq, w, hw, rfl⟩

/-- A successful `merge_growth` is the flattening of a successful merge
loop. -/
theorem merge_growth_ok_elim {growth env : List (String × Table)} {t : Table}
    (hm : merge_growth growth env = .ok t) :
    ∃ out, mergeLoop env growth = .ok out ∧ t = ⟨(out.map Table.rows).flatten⟩ := by
  unfold merge_growth at hm
  cases hml : mergeLoop env growth with
  | error e => rw [hml] at hm; exact absurd hm (by simp)
  | ok out =>
    rw [hml] at hm
    dsimp only at hm
    by_cases hout : out.isEmpty
    · rw [if_pos hout] at hm; exact absurd hm (by simp)
    · rw [if_neg hout] at hm
      exact ⟨out, rfl, (Except.ok.inj hm).symm⟩

/-- Every row of a successful `merge_growth` output comes from some growth
school and carries that school's stamped `학교` and `EC` values. -/
theorem merge_growth_row_elim {growth env : List (String × Table)} {t : Table}
    (hm : merge_growth growth env = .ok t) {r : Row} (hr : r ∈ t.rows) :
    ∃ p ∈ growth, ∃ v, schoolEC env p.1 = .ok v ∧
      r.lookup "EC" = some v ∧ r.lookup "학교" = some (.str p.1) := by
  obtain ⟨out, hml, rfl⟩ := merge_growth_ok_elim hm
  obtain ⟨l, hl, hrl⟩ := List.mem_flatten.mp hr
  obtain ⟨tb, htb, rfl⟩ := List.mem_map.mp hl
  obtain ⟨p, hp, v, hv, rfl⟩ := mergeLoop_ok_mem env growth out hml tb htb
  obtain ⟨h1, h2⟩ := mem_augment_rows hrl
  exact ⟨p, hp, v, hv, h1, h2⟩

/-- A resolved EC stamp for a school with a nonempty numeric `ec` column is
the rounded mean. -/
theorem schoolEC_ok_value {env : List (String × Table)} {s : String} {e : Table}
    {xs : List ℚ} (he : env.lookup s = some e) (hxs : e.colNums "ec" = some xs)
    (hne : xs ≠ []) :
    schoolEC env s = .ok (.num (round2 (xs.sum / xs.length))) := by
  have hie : xs.isEmpty = false := by
    cases xs with
    | nil => exact absurd rfl hne
    | cons x l => rfl
  simp [schoolEC, he, hxs, ecStamp, meanQ, hie]

/-- Every summary row of a successful summary loop comes from a growth
school whose resolved EC stamp is its `EC 목표` entry. -/
theorem summaryLoop_ok_mem (env : List (String × Table)) :
    ∀ (growth : List (String × Table)) (srows : List SummaryRow),
      summaryLoop env growth = .ok srows →
      ∀ sr ∈ srows, ∃ p ∈ growth, schoolEC env p.1 = .ok sr.ecTarget ∧
        sr.schoolName = p.1 ∧ sr.count = p.2.rows.length := by
  intro growth
  induction growth with
  | nil =>
    intro srows h sr hsr
    simp only [summaryLoop] at h
    obtain rfl : ([] : List SummaryRow) = srows := Except.ok.inj h
    simp at hsr
  | cons p rest ih =>
    intro srows h sr hsr
    simp only [summaryLoop] at h
    cases hec : schoolEC env p.1 with
    | error e => rw [hec] at h; exact absurd h (by simp)
    | ok v =>
      rw [hec] at h
      cases hsl : summaryLoop env rest with
      | error e => rw [hsl] at h; exact absurd h (by simp)
      | ok rs =>
        rw [hsl] at h
        obtain rfl : (⟨p.1, v, p.2.rows.length⟩ : SummaryRow) :: rs = srows := Except.ok.inj h
        rcases List.mem_cons.mp hsr with rfl | hrs
        · exact ⟨p, List.mem_cons_self .., hec, rfl, rfl⟩
        · obtain ⟨q, hq, hw, hn, hc⟩ := ih rs hsl sr hrs
          exact ⟨q, List.mem_cons_of_mem _ hq, hw, hn, hc⟩

/-!
### Concrete evaluations

Batteries marks the `ℚ` field operations `@[irreducible]`, so concrete runs
that involve the mean/rounding arithmetic are evaluated through `norm_num`
once, in the lemmas below, and the structural remainder by `rfl`.
-/

/-- `round(5/3, 2) = 1.67`. -/
theorem round2_five_thirds : round2 (5 / 3) = 167 / 100 := by
  norm_num [round2, roundHalfEven]

/-- The `ec` column of the fixture environment table. -/
theorem colNums_envTableA : envTableA.colNums "ec" = some [1, 2, 2] := rfl

/-- Mean of the fixture `ec` column. -/
theorem meanQ_fixture : meanQ [1, 2, 2] = some (5 / 3) := by
  simp only [meanQ, List.isEmpty_cons, Bool.false_eq_true, if_false,
    List.sum_cons, List.sum_nil, List.length_cons, List.length_nil]
  norm_num

/-- The EC stamp computed from the fixture `ec` column. -/
theorem ecStamp_fixture : ecStamp [1, 2, 2] = .num (167 / 100) := by
  unfold ecStamp
  rw [meanQ_fixture]
  dsimp only
  rw [round2_five_thirds]

/-- `round(env_dict["A"]["ec"].mean(), 2)` on the fixtures. -/
theorem schoolEC_fixture : schoolEC envMapA "A" = .ok (.num (167 / 100)) := by
  unfold schoolEC
  rw [show envMapA.lookup "A" = some envTableA from rfl]
  dsimp only
  rw [colNums_envTableA]
  dsimp only
  rw [ecStamp_fixture]

/-- Every school of the fixture growth dict resolves to the stamp `1.67`. -/
theorem schoolEC_fixture_all :
    ∀ p ∈ growthMapA, schoolEC envMapA p.1 = .ok ((fun _ : String => Val.num (167 / 100)) p.1) := by
  intro p hp
  have hp2 : p = ("A", growthTableA) := by simpa [growthMapA] using hp
  rw [hp2]
  exact schoolEC_fixture

/-- The concrete merge run on the fixtures. -/
theorem merge_growth_fixture : merge_growth growthMapA envMapA = .ok mergedA := by
  have hml := mergeLoop_ok_of_forall envMapA (fun _ => Val.num (167 / 100)) growthMapA
    schoolEC_fixture_all
  unfold merge_growth
  rw [hml]
  rfl

/-- The concrete summary run on the fixtures. -/
theorem summary_fixture : summaryLoop envMapA growthMapA = .ok srowsA := by
  show summaryLoop envMapA (("A", growthTableA) :: []) = _
  rw [summaryLoop]
  rw [show (("A", growthTableA) : String × Table).1 = "A" from rfl, schoolEC_fixture]
  rfl

/-- Claim C3, counterexample: with `ec` column `[1, 2, 2]` (mean `5/3`),
`merge_growth` stamps `EC = 1.67 = round(5/3, 2)`, which is NOT the
arithmetic mean `5/3` — the value undergoes a further transformation
(`round(…, 2)`), beyond floating-point tolerance. -/
theorem C3_counterexample :
    merge_growth growthMapA envMapA = .ok mergedA ∧
    envTableA.colNums "ec" = some [1, 2, 2] ∧
    meanQ [1, 2, 2] = some (5 / 3) ∧
    (167 : ℚ) / 100 ≠ 5 / 3 :=
  ⟨merge_growth_fixture, colNums_envTableA, meanQ_fixture, by norm_num⟩

/-- Claim C3 (amended): in the output of `merge_growth`, any two rows with
the same `학교` value have the same `EC` value, and that shared value equals
`round(mean(environment ec), 2)` — the arithmetic mean rounded to two
decimals, not the raw mean. -/
theorem C3_ec_uniform_rounded (growth env : List (String × Table)) (t : Table)
    (hm : merge_growth growth env = .ok t) :
    (∀ r1 ∈ t.rows, ∀ r2 ∈ t.rows,
        r1.lookup "학교" = r2.lookup "학교" → r1.lookup "EC" = r2.lookup "EC") ∧
    (∀ r ∈ t.rows, ∀ s e xs, r.lookup "학교" = some (.str s) →
        env.lookup s = some e → e.colNums "ec" = some xs → xs ≠ [] →
        r.lookup "EC" = some (.num (round2 (xs.sum / xs.length)))) := by
  constructor
  · intro r1 h1 r2 h2 hss
    obtain ⟨p, hp, v, hv, hEC1, hS1⟩ := merge_growth_row_elim hm h1
    obtain ⟨q, hq, w, hw, hEC2, hS2⟩ := merge_growth_row_elim hm h2
    rw [hS1, hS2] at hss
    have hpq : p.1 = q.1 := Val.str.inj (Option.some.inj hss)
    rw [hpq, hw] at hv
    rw [hEC1, hEC2, Except.ok.inj hv]
  · intro r hr s e xs hs he hxs hne
    obtain ⟨p, hp, v, hv, hEC, hS⟩ := merge_growth_row_elim hm hr
    rw [hS] at hs
    have hps : p.1 = s := Val.str.inj (Option.some.inj hs)
    rw [hps, schoolEC_ok_value he hxs hne] at hv
    rw [hEC, ← Except.ok.inj hv]

/-- Witness for the amended C3 on a concrete run. -/
theorem C3_witness :
    (∀ r1 ∈ mergedA.rows, ∀ r2 ∈ mergedA.rows,
        r1.lookup "학교" = r2.lookup "학교" → r1.lookup "EC" = r2.lookup "EC") ∧
    (∀ r ∈ mergedA.rows, ∀ s e xs, r.lookup "학교" = some (.str s) →
        envMapA.lookup s = some e → e.colNums "ec" = some xs → xs ≠ [] →
        r.lookup "EC" = some (.num (round2 (xs.sum / xs.length)))) :=
  C3_ec_uniform_rounded growthMapA envMapA mergedA merge_growth_fixture

/-- Claim C4: when every growth school resolves against the environment map
(in particular whenever the school sets fully overlap), `merge_growth`
succeeds, its output is exactly the in-order concatenation of the per-school
augmented tables (no row dropped or duplicated, intra-school order
preserved), and its row count is the sum of the per-school growth row
counts. -/
theorem C4_join_totality (growth env : List (String × Table)) (ecv : String → Val)
    (hne : growth ≠ []) (hok : ∀ p ∈ growth, schoolEC env p.1 = .ok (ecv p.1)) :
    merge_growth growth env =
      .ok ⟨(growth.map (fun p => (augment p.1 (ecv p.1) p.2).rows)).flatten⟩ ∧
    ((growth.map (fun p => (augment p.1 (ecv p.1) p.2).rows)).flatten).length =
      (growth.map (fun p => p.2.rows.length)).sum := by
  have hml := mergeLoop_ok_of_forall env ecv growth hok
  have hie : (growth.map (fun p => augment p.1 (ecv p.1) p.2)).isEmpty = false := by
    cases growth with
    | nil => exact absurd rfl hne
    | cons p rest => rfl
  constructor
  · unfold merge_growth
    rw [hml]
    dsimp only
    rw [hie]
    simp [List.map_map, Function.comp_def]
  · rw [List.length_flatten, List.map_map]
    have hlen : (List.length ∘ fun p : String × Table => (augment p.1 (ecv p.1) p.2).rows) =
        fun p : String × Table => p.2.rows.length := by
      funext p
      exact augment_length p.1 (ecv p.1) p.2
    rw [hlen]

/-- Witness for C4 on a concrete run. -/
theorem C4_witness :
    merge_growth growthMapA envMapA =
      .ok ⟨(growthMapA.map
        (fun p => (augment p.1 ((fun _ => Val.num (167 / 100)) p.1) p.2).rows)).flatten⟩ ∧
    ((growthMapA.map
        (fun p => (augment p.1 ((fun _ => Val.num (167 / 100)) p.1) p.2).rows)).flatten).length =
      (growthMapA.map (fun p => p.2.rows.length)).sum :=
  C4_join_totality growthMapA envMapA (fun _ => Val.num (167 / 100)) (by decide)
    schoolEC_fixture_all

/-- Claim C5, counterexample: with environment data for `{A, B}` and growth
data for `{C, D}` (empty intersection), `merge_growth` does not fail with a
dedicated `NoCommonSchools` condition — no such error exists in the code and
no emptiness check is performed; the dict access `env_dict[school]` simply
raises `KeyError: C` on the first growth school. -/
theorem C5_counterexample :
    merge_growth growthMapCD envMapAB = .error (.keyError "C") := by decide

/-- Claim C5 (amended): when the first growth school is absent from the
environment map — in particular whenever the school intersection is empty —
`merge_growth` fails with a `KeyError` naming that school; there is no
explicit emptiness check and no `NoCommonSchools` error. -/
theorem C5_missing_school_keyerror (env : List (String × Table))
    (p : String × Table) (rest : List (String × Table))
    (hnone : env.lookup p.1 = none) :
    merge_growth (p :: rest) env = .error (.keyError p.1) := by
  simp [merge_growth, mergeLoop, schoolEC, hnone]

/-- Witness for the amended C5 on a concrete run. -/
theorem C5_witness :
    merge_growth (("C", growthTableA) :: [("D", growthTableA)]) envMapAB =
      .error (.keyError "C") :=
  C5_missing_school_keyerror envMapAB ("C", growthTableA) [("D", growthTableA)] (by decide)

/-- Claim C10: the `EC` value stamped on a school's rows by `merge_growth`
is exactly the `EC 목표` value the summary table reports for that school,
and both are `round(mean(environment ec), 2)`. -/
theorem C10_merge_summary_ec_agree (growth env : List (String × Table)) (t : Table)
    (srows : List SummaryRow) (hm : merge_growth growth env = .ok t)
    (hs : summaryLoop env growth = .ok srows) :
    (∀ r ∈ t.rows, ∀ sr ∈ srows, r.lookup "학교" = some (.str sr.schoolName) →
        r.lookup "EC" = some sr.ecTarget) ∧
    (∀ sr ∈ srows, ∀ e xs, env.lookup sr.schoolName = some e →
        e.colNums "ec" = some xs → xs ≠ [] →
        sr.ecTarget = .num (round2 (xs.sum / xs.length))) := by
  constructor
  · intro r hr sr hsr hname
    obtain ⟨p, hp, v, hv, hEC, hS⟩ := merge_growth_row_elim hm hr
    obtain ⟨q, hq, hw, hn, _⟩ := summaryLoop_ok_mem env growth srows hs sr hsr
    rw [hS] at hname
    have hps : p.1 = sr.schoolName := Val.str.inj (Option.some.inj hname)
    rw [hps, hn, hw] at hv
    rw [hEC, Except.ok.inj hv]
  · intro sr hsr e xs he hxs hne
    obtain ⟨q, hq, hw, hn, _⟩ := summaryLoop_ok_mem env growth srows hs sr hsr
    rw [hn] at he
    rw [schoolEC_ok_value he hxs hne] at hw
    exact (Except.ok.inj hw).symm

/-- Witness for C10 on a concrete run. -/
theorem C10_witness :
    (∀ r ∈ mergedA.rows, ∀ sr ∈ srowsA, r.lookup "학교" = some (.str sr.schoolName) →
        r.lookup "EC" = some sr.ecTarget) ∧
    (∀ sr ∈ srowsA, ∀ e xs, envMapA.lookup sr.schoolName = some e →
        e.colNums "ec" = some xs → xs ≠ [] →
        sr.ecTarget = .num (round2 (xs.sum / xs.length))) :=
  C10_merge_summary_ec_agree growthMapA envMapA mergedA srowsA
    merge_growth_fixture summary_fixture

/-!
### Heap preservation (no mutation of the input tables)
-/

/-- Reading below the allocation frontier is unaffected by appending a
fresh object. -/
theorem heapRead_append (h : List Table) (x : Table) (i : Nat) (hi : i < h.length) :
    heapRead (h ++ [x]) i = heapRead h i := by
  simp [heapRead, List.getD_eq_getElem?_getD, List.getElem?_append, hi]

/-- Writing at one id leaves every other id unchanged. -/
theorem heapRead_set_ne (h : List Table) (j : Nat) (t : Table) (i : Nat) (hne : i ≠ j) :
    heapRead (h.set j t) i = heapRead h i := by
  simp [heapRead, List.getD_eq_getElem?_getD, List.getElem?_set_ne (Ne.symm hne)]

/-- Reading below the allocation frontier is unaffected by any extension of
the heap. -/
theorem heapRead_append_ext (h ext : List Table) (i : Nat) (hi : i < h.length) :
    heapRead (h ++ ext) i = heapRead h i := by
  simp [heapRead, List.getD_eq_getElem?_getD, List.getElem?_append, hi]

/-- The merge loop only allocates fresh objects (`df.copy()`) and writes at
those fresh ids, so the final heap is the initial heap plus newly allocated
objects. -/
theorem mergeLoopHeap_extends (env : List (String × Nat)) :
    ∀ (growth : List (String × Nat)) (h acc : List Table),
      ∃ ext, (mergeLoopHeap env growth h acc).1 = h ++ ext := by
  intro growth
  induction growth with
  | nil => intro h acc; exact ⟨[], by simp [mergeLoopHeap]⟩
  | cons p rest ih =>
    intro h acc
    simp only [mergeLoopHeap]
    have hset : ∀ (x y : Table), (h ++ [x]).set h.length y = h ++ [y] := by
      intro x y
      rw [List.set_append_right _ _ (Nat.le_refl _)]
      simp
    have hlast : ∀ y : Table, heapRead (h ++ [y]) h.length = y := by
      intro y
      simp [heapRead, List.getD_eq_getElem?_getD,
        List.getElem?_append_right (Nat.le_refl _)]
    simp only [hset, hlast]
    split
    · exact ⟨_, rfl⟩
    · split
      · exact ⟨_, rfl⟩
      · rename_i xs hxs
        obtain ⟨ext2, hext2⟩ :=
          ih (h ++ [((heapRead h p.2).setColAll "학교" (Val.str p.1)).setColAll
                "EC" (ecStamp xs)])
            (acc ++ [((heapRead h p.2).setColAll "학교" (Val.str p.1)).setColAll
                "EC" (ecStamp xs)])
        exact ⟨_, by rw [hext2, List.append_assoc]⟩

/-- Every id valid before a merge-loop call reads the same table after it. -/
theorem mergeLoopHeap_preserves (env : List (String × Nat))
    (growth : List (String × Nat)) (h acc : List Table) (i : Nat) (hi : i < h.length) :
    heapRead (mergeLoopHeap env growth h acc).1 i = heapRead h i := by
  obtain ⟨ext, hext⟩ := mergeLoopHeap_extends env growth h acc
  rw [hext]
  exact heapRead_append_ext h ext i hi

/-- Claim C9: `merge_growth` never mutates its input tables — after any
call, every heap object that existed before (in particular every growth and
environment table passed in) is unchanged; the added `학교` and `EC` columns
are written only to the fresh copies. -/
theorem C9_no_input_mutation (h : List Table) (growth env : List (String × Nat)) (i : Nat)
    (hi : i < h.length) :
    heapRead (merge_growth_heap h growth env).1 i = heapRead h i := by
  have key := mergeLoopHeap_preserves env growth h [] i hi
  unfold merge_growth_heap
  rcases hml : mergeLoopHeap env growth h [] with ⟨h2, r⟩
  rw [hml] at key
  cases r with
  | error e => exact key
  | ok out =>
    by_cases hout : out.isEmpty <;> simp only [hout, if_true, if_false] <;> exact key

/-- Witness for C9 on a concrete heap. -/
theorem C9_witness :
    0 < ([growthTableA, envTableA] : List Table).length ∧
    heapRead (merge_growth_heap [growthTableA, envTableA] [("A", 0)] [("A", 1)]).1 0 =
      heapRead [growthTableA, envTableA] 0 :=
  ⟨by simp, C9_no_input_mutation [growthTableA, envTableA] [("A", 0)] [("A", 1)] 0 (by simp)⟩

/-!
### Unicode normalization laws and `find_file`
-/

/-- Recomposition never leaves a leading vowel. -/
theorem headNotVowel_nfc (l : UStr) (h : headNotVowel l) : headNotVowel (nfc l) := by
  cases l with
  | nil => trivial
  | cons c l2 =>
    cases c with
    | plain n => simp [nfc, headNotVowel]
    | lead n =>
      cases l2 with
      | nil => simp [nfc, headNotVowel]
      | cons d l3 => cases d <;> simp [nfc, headNotVowel]
    | vowel n => exact absurd h (by simp [headNotVowel])
    | syll a b => simp [nfc, headNotVowel]

/-- Decomposition never leaves a leading vowel. -/
theorem headNotVowel_nfd (l : UStr) (h : headNotVowel l) : headNotVowel (nfd l) := by
  cases l with
  | nil => trivial
  | cons c l2 =>
    cases c with
    | plain n => simp [nfd, headNotVowel]
    | lead n => simp [nfd, headNotVowel]
    | vowel n => exact absurd h (by simp [headNotVowel])
    | syll a b => simp [nfd, headNotVowel]

/-- A leading consonant not followed by a vowel passes through `nfc`. -/
theorem nfc_cons_lead (a : Nat) (l : UStr) (h : headNotVowel l) :
    nfc (.lead a :: l) = .lead a :: nfc l := by
  cases l with
  | nil => rfl
  | cons d l3 =>
    cases d with
    | vowel n => exact absurd h (by simp [headNotVowel])
    | plain n => rfl
    | lead n => rfl
    | syll x y => rfl

/-- NFD is idempotent. -/
theorem nfd_nfd (s : UStr) : nfd (nfd s) = nfd s := by
  induction s with
  | nil => rfl
  | cons c rest ih => cases c <;> simp [nfd, ih]

/-- NFC is idempotent. -/
theorem nfc_nfc (s : UStr) : nfc (nfc s) = nfc s := by
  induction s using nfc.induct with
  | case1 a b rest ih => simp [nfc, ih]
  | case2 c rest h ih =>
    cases c with
    | lead n =>
      have hnv : headNotVowel rest := by
        cases rest with
        | nil => trivial
        | cons d l3 =>
          cases d with
          | vowel m => exact absurd rfl (h n m l3 rfl)
          | plain m => trivial
          | lead m => trivial
          | syll x y => trivial
      simp only [nfc]
      rw [nfc_cons_lead n (nfc rest) (headNotVowel_nfc rest hnv), ih]
    | plain n => simp [nfc, ih]
    | vowel n => simp [nfc, ih]
    | syll a b => simp [nfc, ih]
  | case3 => rfl

/-- Decomposing a composed string decomposes the original. -/
theorem nfd_nfc (s : UStr) : nfd (nfc s) = nfd s := by
  induction s using nfc.induct with
  | case1 a b rest ih => simp [nfc, nfd, ih]
  | case2 c rest h ih => cases c <;> simp_all [nfc, nfd]
  | case3 => rfl

/-- Composing a decomposed string composes the original. -/
theorem nfc_nfd (s : UStr) : nfc (nfd s) = nfc s := by
  induction s using nfc.induct with
  | case1 a b rest ih => simp [nfc, nfd, ih]
  | case2 c rest h ih =>
    cases c with
    | lead n =>
      have hnv : headNotVowel rest := by
        cases rest with
        | nil => trivial
        | cons d l3 =>
          cases d with
          | vowel m => exact absurd rfl (h n m l3 rfl)
          | plain m => trivial
          | lead m => trivial
          | syll x y => trivial
      simp only [nfd]
      rw [nfc_cons_lead n (nfd rest) (headNotVowel_nfd rest hnv), ih,
        nfc_cons_lead n rest hnv]
    | plain n => simp [nfc, nfd, ih]
    | vowel n => simp [nfc, nfd, ih]
    | syll a b => simp [nfc, nfd, ih]
  | case3 => rfl

/-- Pointwise-equal predicates find the same entry. -/
theorem find?_ext {α : Type} (l : List α) (p q : α → Bool) (hpq : ∀ e, p e = q e) :
    l.find? p = l.find? q := by
  induction l with
  | nil => rfl
  | cons x xs ih => cases hq : q x <;> simp [List.find?_cons, hpq x, hq, ih]

/-- Claim C8: `find_file` resolves to the same file whether the target is
given in composed (NFC), decomposed (NFD) or canonical form, and likewise
when the on-disk filenames change normalization form: names differing only
in normalization are treated as equal. -/
theorem C8_find_file_normalization (dir : List DirEntry) (target : UStr) :
    find_file dir (nfc target) = find_file dir target ∧
    find_file dir (nfd target) = find_file dir target ∧
    (find_file (dir.map (fun e => ⟨nfc e.name, e.fid⟩)) target).map DirEntry.fid =
      (find_file dir target).map DirEntry.fid ∧
    (find_file (dir.map (fun e => ⟨nfd e.name, e.fid⟩)) target).map DirEntry.fid =
      (find_file dir target).map DirEntry.fid := by
  refine ⟨?_, ?_, ?_, ?_⟩
  · exact find?_ext dir _ _ (fun e => by rw [nfc_nfc, nfd_nfc])
  · exact find?_ext dir _ _ (fun e => by rw [nfc_nfd, nfd_nfd])
  · unfold find_file
    rw [List.find?_map]
    rw [find?_ext dir _ _ (fun e => by
      simp only [Function.comp_apply]
      rw [nfc_nfc, nfd_nfc])]
    rw [Option.map_map]
    rfl
  · unfold find_file
    rw [List.find?_map]
    rw [find?_ext dir _ _ (fun e => by
      simp only [Function.comp_apply]
      rw [nfc_nfd, nfd_nfd])]
    rw [Option.map_map]
    rfl

/-!
### The dummy-data fallback loader (variant 1)
-/

/-- The date cell of dummy row `i` is the fixed window day `i`. -/
theorem dummyRow_date (rng : Nat → ℚ) (k i : Nat) :
    (dummyRow rng k i).lookup "날짜" = some (.date (ord20240101 + i)) := rfl

/-- The temperature cell of dummy row `i` is an RNG draw. -/
theorem dummyRow_temp (rng : Nat → ℚ) (k i : Nat) :
    (dummyRow rng k i).lookup "온도" = some (.num (18 + (28 - 18) * rng (k + i))) := rfl

/-- A dummy row has columns `날짜`, `온도`, `습도` only. -/
theorem dummyRow_cols (rng : Nat → ℚ) (k i : Nat) :
    (dummyRow rng k i).map Prod.fst = ["날짜", "온도", "습도"] := rfl

/-- The dummy table has 30 rows. -/
theorem dummy_df_length (rng : Nat → ℚ) (k : Nat) :
    (dummy_df rng k).rows.length = 30 := by
  simp [dummy_df]

/-- The dummy table's date column is the fixed 30-day window. -/
theorem dummy_df_dates (rng : Nat → ℚ) (k : Nat) :
    (dummy_df rng k).rows.map (fun r => r.lookup "날짜") =
      (List.range 30).map (fun i => some (Val.date (ord20240101 + i))) := by
  simp only [dummy_df, List.map_map]
  apply List.map_congr_left
  intro i _
  exact dummyRow_date rng k i

/-- Every row of the dummy table has columns `날짜`, `온도`, `습도` only. -/
theorem dummy_df_cols (rng : Nat → ℚ) (k : Nat) :
    ∀ r ∈ (dummy_df rng k).rows, r.map Prod.fst = ["날짜", "온도", "습도"] := by
  intro r hr
  simp only [dummy_df, List.mem_map] at hr
  obtain ⟨i, _, rfl⟩ := hr
  exact dummyRow_cols rng k i

/-- The loader returns one table per requested school, in order. -/
theorem load_env_go_keys (files : String → Option Table) (rng : Nat → ℚ) :
    ∀ (ss : List String) (k : Nat), (load_env_go files rng ss k).map Prod.fst = ss := by
  intro ss
  induction ss with
  | nil => intro k; rfl
  | cons s rest ih =>
    intro k
    cases hf : files s <;> simp [load_env_go, hf, ih]

/-- A school whose file is missing gets a dummy table (from some RNG
cursor). -/
theorem load_env_go_missing (files : String → Option Table) (rng : Nat → ℚ) :
    ∀ (ss : List String) (k : Nat), ∀ p ∈ load_env_go files rng ss k,
      files p.1 = none → ∃ k2, p.2 = dummy_df rng k2 := by
  intro ss
  induction ss with
  | nil => intro k p hp; simp [load_env_go] at hp
  | cons s rest ih =>
    intro k p hp hmiss
    cases hf : files s with
    | some df =>
      rw [load_env_go, hf] at hp
      rcases List.mem_cons.mp hp with rfl | hrest
      · exact absurd hmiss (by simp [hf])
      · exact ih k p hrest hmiss
    | none =>
      rw [load_env_go, hf] at hp
      rcases List.mem_cons.mp hp with rfl | hrest
      · exact ⟨k, rfl⟩
      · exact ih (k + 60) p hrest hmiss

/-- The first fallback table's first temperature cell, as a function of the
RNG stream. -/
theorem load_head_temp (rng : Nat → ℚ) :
    ((((load_env_data_v1 noFiles rng).headD ("", ⟨[]⟩)).2.rows.headD []).lookup "온도") =
      some (.num (18 + (28 - 18) * rng 0)) := rfl

/-- Claim C6, counterexample: the fallback draws from numpy's unseeded
global RNG; two invocations seeing different RNG states (modelled by the
draw streams constantly 0 and constantly 1/2) return different tables, so
the placeholder is not deterministic and there IS hidden randomness. -/
theorem C6_counterexample :
    load_env_data_v1 noFiles rngZero ≠ load_env_data_v1 noFiles rngHalf := by
  intro hcontra
  have h := congrArg
    (fun d => (((d.headD ("", (⟨[]⟩ : Table))).2.rows.headD []).lookup "온도")) hcontra
  dsimp only at h
  rw [load_head_temp, load_head_temp] at h
  simp only [rngZero, rngHalf, Option.some.injEq, Val.num.injEq] at h
  norm_num at h

/-- Claim C6 (amended): for a missing-file school the fallback table always
has 30 rows spanning the fixed 30-day window starting 2024-01-01 (the shape
and date column are deterministic), but the measurement cells are unseeded
RNG draws, so the table is not independent of the RNG state. -/
theorem C6_fallback_shape (files : String → Option Table) (rng : Nat → ℚ) :
    ((load_env_data_v1 files rng).map Prod.fst = schools_v1) ∧
    (∀ p ∈ load_env_data_v1 files rng, files p.1 = none →
      p.2.rows.length = 30 ∧
      p.2.rows.map (fun r => r.lookup "날짜") =
        (List.range 30).map (fun i => some (Val.date (ord20240101 + i)))) := by
  refine ⟨load_env_go_keys files rng schools_v1 0, ?_⟩
  intro p hp hmiss
  obtain ⟨k2, hk2⟩ := load_env_go_missing files rng schools_v1 0 p hp hmiss
  rw [hk2]
  exact ⟨dummy_df_length rng k2, dummy_df_dates rng k2⟩

/-- Witness for the amended C6 on a concrete configuration. -/
theorem C6_witness :
    ((load_env_data_v1 noFiles rngZero).map Prod.fst = schools_v1) ∧
    (∀ p ∈ load_env_data_v1 noFiles rngZero, noFiles p.1 = none →
      p.2.rows.length = 30 ∧
      p.2.rows.map (fun r => r.lookup "날짜") =
        (List.range 30).map (fun i => some (Val.date (ord20240101 + i)))) :=
  C6_fallback_shape noFiles rngZero

/-- Claim C7, counterexample: in the fallback branch the first requested
school's table's rows carry columns `날짜/온도/습도` only — there is no
`ph` and no `ec` column under any spelling. -/
theorem C7_counterexample :
    (load_env_data_v1 noFiles rngZero).map Prod.fst = schools_v1 ∧
    (((load_env_data_v1 noFiles rngZero).headD ("", ⟨[]⟩)).2.rows.headD []).map Prod.fst =
      ["날짜", "온도", "습도"] ∧
    (((load_env_data_v1 noFiles rngZero).headD ("", ⟨[]⟩)).2.rows.headD []).lookup "ph" =
      none ∧
    (((load_env_data_v1 noFiles rngZero).headD ("", ⟨[]⟩)).2.rows.headD []).lookup "ec" =
      none :=
  ⟨rfl, rfl, rfl, rfl⟩

/-- Claim C7 (amended): `load_env_data` (variant 1) returns exactly one
table per requested school, keyed in request order; but in the missing-file
fallback branch every row has exactly the columns `날짜`, `온도`, `습도` —
the canonical `ph` and `ec` columns are absent, so the canonical-schema
guarantee does not extend to the fallback branch. -/
theorem C7_one_table_per_school (files : String → Option Table) (rng : Nat → ℚ) :
    ((load_env_data_v1 files rng).map Prod.fst = schools_v1) ∧
    (∀ p ∈ load_env_data_v1 files rng, files p.1 = none →
      ∀ r ∈ p.2.rows, r.map Prod.fst = ["날짜", "온도", "습도"]) := by
  refine ⟨load_env_go_keys files rng schools_v1 0, ?_⟩
  intro p hp hmiss
  obtain ⟨k2, hk2⟩ := load_env_go_missing files rng schools_v1 0 p hp hmiss
  rw [hk2]
  exact dummy_df_cols rng k2

/-- Witness for the amended C7 on a concrete configuration. -/
theorem C7_witness :
    ((load_env_data_v1 noFiles rngZero).map Prod.fst = schools_v1) ∧
    (∀ p ∈ load_env_data_v1 noFiles rngZero, noFiles p.1 = none →
      ∀ r ∈ p.2.rows, r.map Prod.fst = ["날짜", "온도", "습도"]) :=
  C7_one_table_per_school noFiles rngZero

/-- Claim C1: for every input triple (humidity, ec, ph) — all rational
inputs, not only the declared slider ranges — `calculate_growth_index`
returns a value in the closed interval `[0, 100]`. -/
theorem C1_growth_index_bounded (humidity ec ph : ℚ) :
    0 ≤ calculate_growth_index humidity ec ph ∧
      calculate_growth_index humidity ec ph ≤ 100 := by
  unfold calculate_growth_index
  exact ⟨le_max_left 0 _, max_le (by norm_num) (min_le_left _ _)⟩

/-- Claim C2: `calculate_growth_index` implements Mode A exactly — it equals
`clamp(100 - |h-60|*0.8 - |ec-2|*20 - |ph-6|*15, 0, 100)` (the spec's Mode A
formula, transcribed independently as `scoreCondition_modeA`) — and at the
ideal point `(60, 2.0, 6.0)` it returns exactly 100. -/
theorem C2_mode_a_exact :
    (∀ humidity ec ph : ℚ,
        calculate_growth_index humidity ec ph = scoreCondition_modeA humidity ec ph) ∧
      calculate_growth_index 60 2 6 = 100 := by
  refine ⟨fun _ _ _ => rfl, ?_⟩
  unfold calculate_growth_index
  norm_num

end SmartFarm
